import Mathlib

/-!
Shallow embedding of `src/autogluon/utils/tabular/features/generators/memory_minimize.py`:
the two feature generators `CategoryMemoryMinimizeFeatureGenerator` and
`NumericMemoryMinimizeFeatureGenerator`, together with the parts of their
environment (pandas categorical columns, numpy dtype range introspection,
and the repository helper `clip_and_astype`) that their behaviour depends on.

A pandas categorical column is represented by its list of category labels
(the order exposed by the categorical encoding) and the per-row integer
codes into that list.  Python exceptions are represented with `Except`:
an operation that raises is `Except.error` carrying the exception name.
-/

namespace MemoryMinimize

/-- Python scalar values that can appear as category labels: strings and
integers (after remapping, labels are integers). -/
inductive PyVal : Type where
  | s : String → PyVal
  | i : Int → PyVal
deriving DecidableEq, Repr

/-- A pandas categorical column: the list of category labels in encoding
order (`Series.cat.categories`), and one code per row indexing into it. -/
structure CatColumn where
  categories : List PyVal
  codes : List Nat
deriving DecidableEq, Repr

/-- The label displayed at each row of a categorical column: the category
selected by the row's code (`none` if a code is out of range). -/
def CatColumn.values (c : CatColumn) : List (Option PyVal) :=
  c.codes.map fun j => c.categories.get? j

/-- A dataframe whose columns are categorical: named columns in order. -/
abbrev CatFrame := List (String × CatColumn)

/-- The slice of `feature_metadata_in` the generators use:
`type_group_map_special`, a mapping from special type names to features. -/
structure FeatureMetadata where
  typeGroupMapSpecial : List (String × List String)
deriving DecidableEq, Repr

/-- A per-column category map: pairs of an original label and its new
integer code (a Python dict built by `_get_category_map`). -/
abbrev CategoryMap := List (PyVal × Nat)

/-- The dict comprehension of `_get_category_map` for one column:
`zip(old_categories, range(len(old_categories)))` as an association list. -/
def getCategoryMapColumn (c : CatColumn) : CategoryMap :=
  c.categories.zip (List.range c.categories.length)

/-- `CategoryMemoryMinimizeFeatureGenerator._get_category_map`: for each
column of `X`, map its categories to `0..k-1` in encoding order. -/
def getCategoryMap (X : CatFrame) : List (String × CategoryMap) :=
  X.map fun nc => (nc.1, getCategoryMapColumn nc.2)

/-- Pandas `Series.cat.rename_categories` with a dict argument: each
category label found in the dict is replaced by its (integer) image; a
label absent from the dict is kept.  Row codes are unchanged. -/
def renameCategories (m : CategoryMap) (c : CatColumn) : CatColumn :=
  { categories := c.categories.map fun a =>
      match List.lookup a m with
      | some n => PyVal.i n
      | none => a
    codes := c.codes }

/-- One iteration of the rename loop: rename the categories of the column
named `col` in the frame, leaving every other column untouched. -/
def renameColumnIn (m : CategoryMap) (col : String) (X : CatFrame) : CatFrame :=
  X.map fun nc => if nc.1 = col then (nc.1, renameCategories m nc.2) else nc

/-- The loop of `_minimize_categorical_memory_usage`: for each mapped
column name, rename that column's categories in place; selecting a column
name absent from the frame raises a pandas KeyError. -/
def applyCategoryMaps (maps : List (String × CategoryMap)) (X : CatFrame) :
    Except String CatFrame :=
  match maps with
  | [] => Except.ok X
  | (col, m) :: rest =>
    if X.any fun nc => nc.1 == col then
      applyCategoryMaps rest (renameColumnIn m col X)
    else
      Except.error "KeyError"

/-- State of a `CategoryMemoryMinimizeFeatureGenerator` instance:
`inplace` and `feature_metadata_in` are set by `__init__`;
`_category_maps` does not exist (`none`) until `_fit_transform` runs. -/
structure CategoryMemoryMinimizeFeatureGenerator where
  inplace : Bool
  featureMetadataIn : FeatureMetadata
  categoryMaps : Option (List (String × CategoryMap))
deriving DecidableEq, Repr

/-- `CategoryMemoryMinimizeFeatureGenerator.__init__(inplace=False)`:
stores the flag; the `_category_maps` attribute is not created here. -/
def catInit (inplace : Bool) (meta : FeatureMetadata) :
    CategoryMemoryMinimizeFeatureGenerator :=
  { inplace := inplace, featureMetadataIn := meta, categoryMaps := none }

/-- `_minimize_categorical_memory_usage`, value level: reading the absent
`_category_maps` attribute raises AttributeError; an empty map dict is
falsy, so the input is returned unchanged; otherwise every mapped column
is renamed.  (The copy-vs-inplace distinction only concerns the caller's
aliasing and is modelled separately by `minimizeCategoricalEffect`.) -/
def minimizeCategoricalMemoryUsage (g : CategoryMemoryMinimizeFeatureGenerator)
    (X : CatFrame) : Except String CatFrame :=
  match g.categoryMaps with
  | none => Except.error "AttributeError"
  | some maps =>
    if maps.isEmpty then Except.ok X
    else applyCategoryMaps maps X

/-- `_transform` just delegates to `_minimize_categorical_memory_usage`. -/
def catTransform (g : CategoryMemoryMinimizeFeatureGenerator) (X : CatFrame) :
    Except String CatFrame :=
  minimizeCategoricalMemoryUsage g X

/-- Effect model of `_minimize_categorical_memory_usage`: the result pair
is (the dataset the caller's reference holds after the call, the returned
dataset).  With a non-empty map dict the source deep-copies `X` unless
`self.inplace`, then renames columns of the (copied or original) frame. -/
def minimizeCategoricalEffect (g : CategoryMemoryMinimizeFeatureGenerator)
    (X : CatFrame) : Except String (CatFrame × CatFrame) :=
  match g.categoryMaps with
  | none => Except.error "AttributeError"
  | some maps =>
    if maps.isEmpty then Except.ok (X, X)
    else
      match applyCategoryMaps maps X with
      | Except.error e => Except.error e
      | Except.ok X2 =>
        if g.inplace then Except.ok (X2, X2) else Except.ok (X, X2)

/-- `CategoryMemoryMinimizeFeatureGenerator._fit_transform`: store the
category maps built from `X`, transform `X` with them, and return the
transformed frame together with
`self.feature_metadata_in.type_group_map_special`.  The first component is
the post-call generator state. -/
def catFitTransform (g : CategoryMemoryMinimizeFeatureGenerator) (X : CatFrame) :
    CategoryMemoryMinimizeFeatureGenerator × Except String CatFrame ×
      List (String × List String) :=
  let g2 := { g with categoryMaps := some (getCategoryMap X) }
  (g2, minimizeCategoricalMemoryUsage g2 X, g.featureMetadataIn.typeGroupMapSpecial)

/-- Construction of a pandas categorical column from raw values with the
categories enumerated in first-seen order (the encoding order the spec
stipulates for the fitted columns): accumulator holds labels already seen. -/
def firstSeenAux (acc : List PyVal) : List PyVal → List PyVal
  | [] => []
  | a :: as => if a ∈ acc then firstSeenAux acc as else a :: firstSeenAux (a :: acc) as

/-- Distinct values of a list in first-seen order. -/
def firstSeen (l : List PyVal) : List PyVal :=
  firstSeenAux [] l

/-- A categorical column over `vals` whose categories are the distinct
values in first-seen order and whose codes index each row's value. -/
def categoricalFromValues (vals : List PyVal) : CatColumn :=
  { categories := firstSeen vals
    codes := vals.map fun v => List.indexOf v (firstSeen vals) }

/-- Numpy dtypes that can be passed as `dtype_out`, plus two dtypes with
neither integer nor floating range information. -/
inductive DType : Type where
  | int8 | int16 | int32 | int64
  | uint8 | uint16 | uint32 | uint64
  | float16 | float32 | float64
  | boolType | objectType
deriving DecidableEq, Repr

/-- The fields of a numpy iinfo/finfo record the source reads: the dtype
and its inclusive minimum and maximum representable values. -/
structure NInfo where
  dtype : DType
  min : Int
  max : Int
deriving DecidableEq, Repr

/-- Numpy `np.iinfo`: integer range information; raises ValueError
(here `none`) on any non-integer dtype. -/
def iinfo : DType → Option NInfo
  | DType.int8 => some ⟨DType.int8, -(2 ^ 7), 2 ^ 7 - 1⟩
  | DType.int16 => some ⟨DType.int16, -(2 ^ 15), 2 ^ 15 - 1⟩
  | DType.int32 => some ⟨DType.int32, -(2 ^ 31), 2 ^ 31 - 1⟩
  | DType.int64 => some ⟨DType.int64, -(2 ^ 63), 2 ^ 63 - 1⟩
  | DType.uint8 => some ⟨DType.uint8, 0, 2 ^ 8 - 1⟩
  | DType.uint16 => some ⟨DType.uint16, 0, 2 ^ 16 - 1⟩
  | DType.uint32 => some ⟨DType.uint32, 0, 2 ^ 32 - 1⟩
  | DType.uint64 => some ⟨DType.uint64, 0, 2 ^ 64 - 1⟩
  | _ => none

/-- Numpy `np.finfo`: floating range information with the exact integer
values of the largest finite floats; raises ValueError (`none`) on any
non-floating dtype. -/
def finfo : DType → Option NInfo
  | DType.float16 => some ⟨DType.float16, -65504, 65504⟩
  | DType.float32 => some ⟨DType.float32, -((2 ^ 24 - 1) * 2 ^ 104), (2 ^ 24 - 1) * 2 ^ 104⟩
  | DType.float64 => some ⟨DType.float64, -((2 ^ 53 - 1) * 2 ^ 971), (2 ^ 53 - 1) * 2 ^ 971⟩
  | _ => none

/-- `NumericMemoryMinimizeFeatureGenerator._get_dtype_clip_args`: try
`np.iinfo(dtype)`, on ValueError fall back to `np.finfo(dtype)` (whose own
ValueError is uncaught), and return the dtype with its min and max. -/
def getDtypeClipArgs (d : DType) : Except String (DType × Int × Int) :=
  match iinfo d with
  | some info => Except.ok (info.dtype, info.min, info.max)
  | none =>
    match finfo d with
    | some info => Except.ok (info.dtype, info.min, info.max)
    | none => Except.error "ValueError"

/-- A numeric column: its storage dtype and its integer values. -/
structure NumColumn where
  dtype : DType
  values : List Int
deriving DecidableEq, Repr

/-- A dataframe whose columns are numeric. -/
abbrev NumFrame := List (String × NumColumn)

/-- Saturating clamp of one value into the inclusive range
(numpy clip applies the lower bound, then the upper bound). -/
def clipVal (clipMin clipMax v : Int) : Int :=
  min (max v clipMin) clipMax

/-- Modelled from the spec: the helper `clip_and_astype` of
`autogluon/utils/tabular/features/utils.py` is not under `src/`; per the
spec it clamps every value of every column into the inclusive range
(saturating clip, not wraparound) and then casts the column's storage
type to the target dtype. -/
def clip_and_astype (df : NumFrame) (clipMin clipMax : Int) (dtype : DType) : NumFrame :=
  df.map fun nc => (nc.1, { dtype := dtype, values := nc.2.values.map (clipVal clipMin clipMax) })

/-- State of a `NumericMemoryMinimizeFeatureGenerator` instance after a
successful `__init__`: the resolved dtype, the clip bounds, and
`feature_metadata_in`.  No other state is ever written. -/
structure NumericMemoryMinimizeFeatureGenerator where
  dtypeOut : DType
  clipMin : Int
  clipMax : Int
  featureMetadataIn : FeatureMetadata
deriving DecidableEq, Repr

/-- `NumericMemoryMinimizeFeatureGenerator.__init__(dtype_out=np.uint8)`:
derive `(dtype_out, _clip_min, _clip_max)` via `_get_dtype_clip_args`; a
ValueError raised there propagates out of construction. -/
def numInit (dtypeOut : DType) (meta : FeatureMetadata) :
    Except String NumericMemoryMinimizeFeatureGenerator :=
  match getDtypeClipArgs dtypeOut with
  | Except.error e => Except.error e
  | Except.ok (d, lo, hi) =>
    Except.ok { dtypeOut := d, clipMin := lo, clipMax := hi, featureMetadataIn := meta }

/-- `_minimize_numeric_memory_usage`: `clip_and_astype` with the stored
bounds and dtype. -/
def minimizeNumericMemoryUsage (g : NumericMemoryMinimizeFeatureGenerator)
    (X : NumFrame) : NumFrame :=
  clip_and_astype X g.clipMin g.clipMax g.dtypeOut

/-- `NumericMemoryMinimizeFeatureGenerator._transform` delegates to
`_minimize_numeric_memory_usage`. -/
def numTransform (g : NumericMemoryMinimizeFeatureGenerator) (X : NumFrame) : NumFrame :=
  minimizeNumericMemoryUsage g X

/-- `NumericMemoryMinimizeFeatureGenerator._fit_transform`: transform `X`
and return it with `self.feature_metadata_in.type_group_map_special`; the
generator state (first component) is untouched. -/
def numFitTransform (g : NumericMemoryMinimizeFeatureGenerator) (X : NumFrame) :
    NumericMemoryMinimizeFeatureGenerator × NumFrame × List (String × List String) :=
  (g, numTransform g X, g.featureMetadataIn.typeGroupMapSpecial)

/-! Helper lemmas about the embedding. -/

/-- Membership in the zip of a list with the range of its length is
exactly positional indexing. -/
lemma mem_zip_range {l : List PyVal} {a : PyVal} {i : Nat} :
    (a, i) ∈ l.zip (List.range l.length) ↔ l.get? i = some a := by
  rw [List.mem_iff_getElem?]
  constructor
  · rintro ⟨n, hn⟩
    rw [List.getElem?_zip_eq_some] at hn
    obtain ⟨h1, h2⟩ := hn
    have hn' : n < l.length := by
      by_contra hc
      rw [List.getElem?_eq_none (by omega)] at h1
      exact Option.noConfusion h1
    rw [List.getElem?_range hn'] at h2
    cases h2
    rw [List.get?_eq_getElem?]
    exact h1
  · intro h
    rw [List.get?_eq_getElem?] at h
    have hi : i < l.length := by
      by_contra hc
      rw [List.getElem?_eq_none (by omega)] at h
      exact Option.noConfusion h
    exact ⟨i, List.getElem?_zip_eq_some.mpr ⟨h, List.getElem?_range hi⟩⟩

/-- Looking up the j-th element of a duplicate-free list in its zip with
a shifted index range returns the shifted position. -/
lemma lookup_zip_range' :
    ∀ (l : List PyVal), l.Nodup → ∀ (j s : Nat) (h : j < l.length),
      List.lookup (l.get ⟨j, h⟩) (l.zip (List.range' s l.length)) = some (s + j) := by
  intro l
  induction l with
  | nil => intro _ j s h; cases h
  | cons b bs ih =>
    intro hnd j s h
    have hz : (b :: bs).zip (List.range' s (b :: bs).length) =
        (b, s) :: bs.zip (List.range' (s + 1) bs.length) := by
      rw [List.length_cons, List.range'_succ, List.zip_cons_cons]
    rw [hz]
    match j with
    | 0 =>
      simp [List.lookup_cons]
    | Nat.succ j' =>
      have hb : b ∉ bs := (List.nodup_cons.mp hnd).1
      have hj' : j' < bs.length := by
        have h2 := h
        rw [List.length_cons] at h2
        omega
      have hne : (bs.get ⟨j', hj'⟩ == b) = false := by
        rw [beq_eq_false_iff_ne]
        intro hcontra
        exact hb (by rw [← hcontra]; exact List.get_mem bs j' hj')
      have hget : (b :: bs).get ⟨j' + 1, h⟩ = bs.get ⟨j', hj'⟩ := rfl
      rw [hget, List.lookup_cons, hne]
      show List.lookup (bs.get ⟨j', hj'⟩) (bs.zip (List.range' (s + 1) bs.length)) =
        some (s + (j' + 1))
      rw [ih (List.nodup_cons.mp hnd).2 j' (s + 1) hj']
      congr 1
      omega

/-- Looking up a category of a duplicate-free column in the map built by
the fit step gives its position. -/
lemma lookup_getCategoryMapColumn (c : CatColumn) (hnd : c.categories.Nodup)
    (j : Nat) (h : j < c.categories.length) :
    List.lookup (c.categories.get ⟨j, h⟩) (getCategoryMapColumn c) = some j := by
  have := lookup_zip_range' c.categories hnd j 0 h
  rw [getCategoryMapColumn, List.range_eq_range']
  simpa using this

/-- Renaming through the fitted category map of a duplicate-free column
replaces the category list with the integers 0..k-1 and keeps the codes. -/
lemma renameCategories_getCategoryMapColumn (c : CatColumn) (hnd : c.categories.Nodup) :
    renameCategories (getCategoryMapColumn c) c =
      { categories := (List.range c.categories.length).map fun (j : Nat) => PyVal.i (j : Int)
        codes := c.codes } := by
  rw [renameCategories]
  congr 1
  apply List.ext_get?
  intro n
  rw [List.get?_eq_getElem?, List.get?_eq_getElem?, List.getElem?_map, List.getElem?_map]
  by_cases hn : n < c.categories.length
  · have hg : c.categories[n]? = some (c.categories.get ⟨n, hn⟩) := by
      rw [← List.get?_eq_getElem?]
      exact List.get?_eq_get hn
    have hr : (List.range c.categories.length)[n]? = some n := List.getElem?_range hn
    rw [hg, hr, Option.map_some', Option.map_some', lookup_getCategoryMapColumn c hnd n hn]
  · have hg : c.categories[n]? = none := by
      rw [← List.get?_eq_getElem?]
      exact List.get?_eq_none.mpr (by omega)
    have hr : (List.range c.categories.length)[n]? = none := by
      rw [← List.get?_eq_getElem?]
      exact List.get?_eq_none.mpr (by simpa using Nat.le_of_not_lt hn)
    rw [hg, hr, Option.map_none', Option.map_none']

/-- Membership in the first-seen pass: an element is collected exactly
when it occurs in the remaining input and was not already seen. -/
lemma mem_firstSeenAux :
    ∀ (l acc : List PyVal) (x : PyVal), x ∈ firstSeenAux acc l ↔ (x ∈ l ∧ x ∉ acc) := by
  intro l
  induction l with
  | nil => intro acc x; simp [firstSeenAux]
  | cons a as ih =>
    intro acc x
    by_cases ha : a ∈ acc
    · rw [firstSeenAux, if_pos ha, ih]
      simp only [List.mem_cons]
      by_cases hxa : x = a
      · subst hxa
        simp [ha]
      · simp [hxa]
    · rw [firstSeenAux, if_neg ha]
      simp only [List.mem_cons]
      rw [ih]
      simp only [List.mem_cons]
      by_cases hxa : x = a
      · subst hxa
        simp [ha]
      · simp [hxa]

/-- The first-seen pass never collects a value twice. -/
lemma firstSeenAux_nodup : ∀ (l acc : List PyVal), (firstSeenAux acc l).Nodup := by
  intro l
  induction l with
  | nil => intro acc; simp [firstSeenAux]
  | cons a as ih =>
    intro acc
    by_cases ha : a ∈ acc
    · rw [firstSeenAux, if_pos ha]; exact ih acc
    · rw [firstSeenAux, if_neg ha, List.nodup_cons]
      refine ⟨fun hc => ?_, ih (a :: acc)⟩
      exact ((mem_firstSeenAux as (a :: acc) a).mp hc).2 (List.mem_cons_self a acc)

/-- A value occurs in the first-seen distinct list exactly when it occurs
in the input. -/
lemma mem_firstSeen {l : List PyVal} {x : PyVal} : x ∈ firstSeen l ↔ x ∈ l := by
  rw [firstSeen, mem_firstSeenAux]
  simp

/-- The first-seen distinct list is duplicate-free. -/
lemma firstSeen_nodup (l : List PyVal) : (firstSeen l).Nodup :=
  firstSeenAux_nodup l []

/-- In a duplicate-free list, the index of the j-th element is j. -/
lemma indexOf_get_of_nodup :
    ∀ (l : List PyVal), l.Nodup → ∀ (j : Nat) (h : j < l.length),
      List.indexOf (l.get ⟨j, h⟩) l = j := by
  intro l
  induction l with
  | nil => intro _ j h; cases h
  | cons b bs ih =>
    intro hnd j h
    match j with
    | 0 => exact List.indexOf_cons_self b bs
    | Nat.succ j' =>
      have hb : b ∉ bs := (List.nodup_cons.mp hnd).1
      have hj' : j' < bs.length := by simpa [Nat.succ_lt_succ_iff] using h
      have hget : (b :: bs).get ⟨j' + 1, h⟩ = bs.get ⟨j', hj'⟩ := rfl
      rw [hget, List.indexOf_cons_ne bs
        (fun hc => hb (by rw [hc]; exact List.get_mem bs j' hj')),
        ih (List.nodup_cons.mp hnd).2 j' hj']

/-- Renaming a column inside a frame changes no column name and no code
sequence. -/
lemma renameColumnIn_proj (m : CategoryMap) (col : String) (X : CatFrame) :
    (renameColumnIn m col X).map (fun p => (p.1, p.2.codes)) =
      X.map fun p => (p.1, p.2.codes) := by
  rw [renameColumnIn, List.map_map]
  apply List.map_congr_left
  intro nc _
  by_cases h : nc.1 = col <;> simp [h, renameCategories]

/-- The rename loop, when it succeeds, changes no column name and no code
sequence. -/
lemma applyCategoryMaps_proj :
    ∀ (maps : List (String × CategoryMap)) (X X2 : CatFrame),
      applyCategoryMaps maps X = Except.ok X2 →
      X2.map (fun p => (p.1, p.2.codes)) = X.map fun p => (p.1, p.2.codes) := by
  intro maps
  induction maps with
  | nil =>
    intro X X2 h
    cases h
    rfl
  | cons hd tl ih =>
    intro X X2 h
    obtain ⟨col, m⟩ := hd
    rw [applyCategoryMaps] at h
    by_cases hany : (X.any fun nc => nc.1 == col) = true
    · rw [if_pos hany] at h
      rw [ih _ _ h, renameColumnIn_proj]
    · rw [if_neg hany] at h
      exact Except.noConfusion h

/-- Renaming a column inside a frame preserves every column-name test. -/
lemma any_renameColumnIn (m : CategoryMap) (col c : String) (X : CatFrame) :
    ((renameColumnIn m col X).any fun nc => nc.1 == c) = X.any fun nc => nc.1 == c := by
  rw [renameColumnIn, List.any_map]
  induction X with
  | nil => rfl
  | cons hd tl ih =>
    rw [List.any_cons, List.any_cons, ih]
    by_cases h : hd.1 = col <;> simp [h, Function.comp]

/-- The rename loop succeeds whenever every mapped column name occurs in
the frame. -/
lemma applyCategoryMaps_ok :
    ∀ (maps : List (String × CategoryMap)) (X : CatFrame),
      (∀ p ∈ maps, (X.any fun nc => nc.1 == p.1) = true) →
      ∃ X2, applyCategoryMaps maps X = Except.ok X2 := by
  intro maps
  induction maps with
  | nil => intro X _; exact ⟨X, rfl⟩
  | cons hd tl ih =>
    intro X hall
    obtain ⟨col, m⟩ := hd
    have h1 : (X.any fun nc => nc.1 == col) = true := hall _ (List.mem_cons_self _ _)
    rw [applyCategoryMaps, if_pos h1]
    apply ih
    intro p hp
    rw [any_renameColumnIn]
    exact hall p (List.mem_cons_of_mem _ hp)

/-- Inclusive minimum representable value of each numpy dtype, written
out independently of the iinfo/finfo tables; `none` for a dtype with no
integer and no floating range information. -/
def dtypeMinRepresentable : DType → Option Int
  | DType.int8 => some (-(2 ^ 7))
  | DType.int16 => some (-(2 ^ 15))
  | DType.int32 => some (-(2 ^ 31))
  | DType.int64 => some (-(2 ^ 63))
  | DType.uint8 => some 0
  | DType.uint16 => some 0
  | DType.uint32 => some 0
  | DType.uint64 => some 0
  | DType.float16 => some (-65504)
  | DType.float32 => some (-((2 ^ 24 - 1) * 2 ^ 104))
  | DType.float64 => some (-((2 ^ 53 - 1) * 2 ^ 971))
  | DType.boolType => none
  | DType.objectType => none

/-- Inclusive maximum representable value of each numpy dtype, written
out independently of the iinfo/finfo tables; `none` for a dtype with no
integer and no floating range information. -/
def dtypeMaxRepresentable : DType → Option Int
  | DType.int8 => some (2 ^ 7 - 1)
  | DType.int16 => some (2 ^ 15 - 1)
  | DType.int32 => some (2 ^ 31 - 1)
  | DType.int64 => some (2 ^ 63 - 1)
  | DType.uint8 => some (2 ^ 8 - 1)
  | DType.uint16 => some (2 ^ 16 - 1)
  | DType.uint32 => some (2 ^ 32 - 1)
  | DType.uint64 => some (2 ^ 64 - 1)
  | DType.float16 => some 65504
  | DType.float32 => some ((2 ^ 24 - 1) * 2 ^ 104)
  | DType.float64 => some ((2 ^ 53 - 1) * 2 ^ 971)
  | DType.boolType => none
  | DType.objectType => none

/-! Theorems settling the claims. -/

/-- C2: every value clipped by the Numeric Minimizer satisfies
lo ≤ v' ≤ hi; inputs at or below lo map to lo, at or above hi map to hi,
and in-range inputs are unchanged except for the storage-dtype cast; the
column [-5, 0, 130, 255, 300] clipped to uint8 bounds [0, 255] becomes
[0, 0, 130, 255, 255] with storage dtype uint8. -/
theorem c2_numeric_clip_saturates :
    (∀ lo hi v : Int, lo ≤ hi →
      (lo ≤ clipVal lo hi v ∧ clipVal lo hi v ≤ hi) ∧
      (v ≤ lo → clipVal lo hi v = lo) ∧
      (hi ≤ v → clipVal lo hi v = hi) ∧
      (lo ≤ v → v ≤ hi → clipVal lo hi v = v)) ∧
    (∀ (lo hi : Int) (d : DType) (X : NumFrame), lo ≤ hi →
      ∀ p ∈ clip_and_astype X lo hi d,
        p.2.dtype = d ∧ ∀ w ∈ p.2.values, lo ≤ w ∧ w ≤ hi) ∧
    numInit DType.uint8 ⟨[]⟩ = Except.ok ⟨DType.uint8, 0, 255, ⟨[]⟩⟩ ∧
    numTransform ⟨DType.uint8, 0, 255, ⟨[]⟩⟩
        [("c", ⟨DType.int64, [-5, 0, 130, 255, 300]⟩)] =
      [("c", ⟨DType.uint8, [0, 0, 130, 255, 255]⟩)] := by
  refine ⟨?_, ?_, rfl, ?_⟩
  · intro lo hi v h
    simp only [clipVal, max_def, min_def]
    split_ifs <;>
      refine ⟨⟨by omega, by omega⟩, fun h1 => by omega, fun h1 => by omega,
        fun h1 h2 => by omega⟩
  · intro lo hi d X hle p hp
    rw [clip_and_astype, List.mem_map] at hp
    obtain ⟨q, hq, rfl⟩ := hp
    refine ⟨rfl, ?_⟩
    intro w hw
    simp only [List.mem_map] at hw
    obtain ⟨v, hv, rfl⟩ := hw
    simp only [clipVal, max_def, min_def]
    split_ifs <;> omega
  · decide

/-- C2 witness: the clip bounds hold at the concrete inputs lo = 0,
hi = 255, v = -5 and v = 300. -/
theorem c2_witness : clipVal 0 255 (-5) = 0 ∧ clipVal 0 255 300 = 255 :=
  ⟨(c2_numeric_clip_saturates.1 0 255 (-5) (by omega)).2.1 (by omega),
    (c2_numeric_clip_saturates.1 0 255 300 (by omega)).2.2.1 (by omega)⟩

/-- C5 (amended): construction of the Numeric Minimizer fails exactly
when the dtype has neither integer nor floating range information, and on
success the stored clip bounds are exactly the dtype's inclusive
representable minimum and maximum (integer introspection first, floating
otherwise); this is the only construction-time failure in either
component. -/
theorem c5_construction_bounds (d : DType) (meta : FeatureMetadata) :
    ((∃ e, numInit d meta = Except.error e) ↔ iinfo d = none ∧ finfo d = none) ∧
    (∀ g, numInit d meta = Except.ok g →
      g.dtypeOut = d ∧ some g.clipMin = dtypeMinRepresentable d ∧
      some g.clipMax = dtypeMaxRepresentable d ∧ g.featureMetadataIn = meta) := by
  cases d <;>
    refine ⟨?_, ?_⟩ <;>
      simp [numInit, getDtypeClipArgs, iinfo, finfo, dtypeMinRepresentable,
        dtypeMaxRepresentable]

/-- C5 witness: at the concrete dtype uint8, construction succeeds with
the stored bounds equal to the representable range of uint8. -/
theorem c5_witness :
    (⟨DType.uint8, 0, 255, ⟨[]⟩⟩ : NumericMemoryMinimizeFeatureGenerator).dtypeOut =
        DType.uint8 ∧
      some (0 : Int) = dtypeMinRepresentable DType.uint8 ∧
      some (255 : Int) = dtypeMaxRepresentable DType.uint8 ∧
      (⟨DType.uint8, 0, 255, ⟨[]⟩⟩ :
          NumericMemoryMinimizeFeatureGenerator).featureMetadataIn = ⟨[]⟩ :=
  (c5_construction_bounds DType.uint8 ⟨[]⟩).2 ⟨DType.uint8, 0, 255, ⟨[]⟩⟩ rfl

/-- C5 counterexample: numeric construction is not the only failure path
in the two components; a freshly constructed Category Minimizer's
transform (never fitted) already fails with AttributeError. -/
theorem c5_counterexample :
    catTransform (catInit false ⟨[]⟩) [] = Except.error "AttributeError" := rfl

/-- C6: on a fitted Category Minimizer whose stored map set is empty,
transform returns the input dataset unchanged. -/
theorem c6_fitted_empty_map_identity (g : CategoryMemoryMinimizeFeatureGenerator)
    (X : CatFrame) (h : g.categoryMaps = some []) :
    catTransform g X = Except.ok X := by
  simp [catTransform, minimizeCategoricalMemoryUsage, h]

/-- C6 witness: the identity behaviour at a concrete fitted-empty
instance and concrete input. -/
theorem c6_witness : catTransform ⟨false, ⟨[]⟩, some []⟩ [] = Except.ok [] :=
  c6_fitted_empty_map_identity ⟨false, ⟨[]⟩, some []⟩ [] rfl

/-- C8: the Numeric Minimizer's fit_transform returns exactly the result
of transform on the same input, leaves the generator state unchanged, and
additionally returns the type metadata. -/
theorem c8_numeric_fit_transform_is_transform
    (g : NumericMemoryMinimizeFeatureGenerator) (X : NumFrame) :
    (numFitTransform g X).2.1 = numTransform g X ∧
    (numFitTransform g X).1 = g ∧
    (numFitTransform g X).2.2 = g.featureMetadataIn.typeGroupMapSpecial :=
  ⟨rfl, rfl, rfl⟩

/-- C9: both components return, as the metadata element of fit_transform,
the input feature metadata's special-type grouping unchanged. -/
theorem c9_metadata_pass_through (gc : CategoryMemoryMinimizeFeatureGenerator)
    (X : CatFrame) (gn : NumericMemoryMinimizeFeatureGenerator) (Y : NumFrame) :
    (catFitTransform gc X).2.2 = gc.featureMetadataIn.typeGroupMapSpecial ∧
    (numFitTransform gn Y).2.2 = gn.featureMetadataIn.typeGroupMapSpecial :=
  ⟨rfl, rfl⟩

/-- C10: transform on a never-fitted Category Minimizer raises an
attribute-lookup error rather than returning the input unchanged; the
category-map attribute only comes into existence in fit_transform, and
returning the input unchanged is the behaviour of a fitted instance whose
map set is empty. -/
theorem c10_transform_before_fit_raises (b : Bool) (meta : FeatureMetadata)
    (X : CatFrame) :
    (catInit b meta).categoryMaps = none ∧
    catTransform (catInit b meta) X = Except.error "AttributeError" ∧
    catTransform (catInit b meta) X ≠ Except.ok X ∧
    ((catFitTransform (catInit b meta) X).1.categoryMaps).isSome = true ∧
    catTransform ⟨b, meta, some []⟩ X = Except.ok X :=
  ⟨rfl, rfl, fun h => Except.noConfusion h, rfl, rfl⟩

/-- C1: the per-column map stored at fit time pairs the column's distinct
category labels one-to-one with the integers 0..k-1, each label's code
being its position in the order the categorical encoding enumerates the
categories. -/
theorem c1_category_map_bijection (X : CatFrame) (name : String) (c : CatColumn)
    (hmem : (name, c) ∈ X) (hnd : c.categories.Nodup) :
    (name, getCategoryMapColumn c) ∈ getCategoryMap X ∧
    (getCategoryMapColumn c).map Prod.fst = c.categories ∧
    (getCategoryMapColumn c).map Prod.snd = List.range c.categories.length ∧
    (∀ a i, (a, i) ∈ getCategoryMapColumn c ↔ c.categories.get? i = some a) ∧
    (∀ a a2 i, (a, i) ∈ getCategoryMapColumn c → (a2, i) ∈ getCategoryMapColumn c →
      a = a2) ∧
    (∀ a i i2, (a, i) ∈ getCategoryMapColumn c → (a, i2) ∈ getCategoryMapColumn c →
      i = i2) := by
  have hiff : ∀ a i, (a, i) ∈ getCategoryMapColumn c ↔ c.categories.get? i = some a :=
    fun a i => mem_zip_range
  refine ⟨?_, ?_, ?_, hiff, ?_, ?_⟩
  · exact List.mem_map_of_mem _ hmem
  · rw [getCategoryMapColumn]
    exact List.map_fst_zip _ _ (by rw [List.length_range])
  · rw [getCategoryMapColumn]
    exact List.map_snd_zip _ _ (by rw [List.length_range])
  · intro a a2 i h1 h2
    rw [hiff] at h1 h2
    exact Option.some.inj (h1.symm.trans h2)
  · intro a i i2 h1 h2
    rw [hiff] at h1 h2
    have hi : i < c.categories.length := by
      by_contra hc
      rw [List.get?_eq_none.mpr (by omega)] at h1
      exact Option.noConfusion h1
    apply List.getElem?_inj hi hnd
    rw [← List.get?_eq_getElem?, ← List.get?_eq_getElem?, h1, h2]

/-- C1 witness: the fitted map of a concrete two-category column is
stored for its column name. -/
theorem c1_witness :
    ("col", getCategoryMapColumn ⟨[PyVal.s "red", PyVal.s "blue"], [0, 1]⟩) ∈
      getCategoryMap [("col", ⟨[PyVal.s "red", PyVal.s "blue"], [0, 1]⟩)] :=
  (c1_category_map_bijection [("col", ⟨[PyVal.s "red", PyVal.s "blue"], [0, 1]⟩)]
    "col" ⟨[PyVal.s "red", PyVal.s "blue"], [0, 1]⟩ (List.mem_cons_self _ _)
    (by decide)).1

/-- C4: with a fitted non-empty category map, transform with
inplace=false leaves the caller's dataset unchanged and returns the
rewritten copy, while inplace=true leaves the caller's reference holding
the rewritten dataset; the returned dataset is the same either way. -/
theorem c4_inplace_effect (meta : FeatureMetadata)
    (maps : List (String × CategoryMap)) (X X2 : CatFrame) (hne : maps ≠ [])
    (hok : applyCategoryMaps maps X = Except.ok X2) :
    minimizeCategoricalEffect ⟨false, meta, some maps⟩ X = Except.ok (X, X2) ∧
    minimizeCategoricalEffect ⟨true, meta, some maps⟩ X = Except.ok (X2, X2) ∧
    catTransform ⟨false, meta, some maps⟩ X = Except.ok X2 ∧
    catTransform ⟨true, meta, some maps⟩ X = Except.ok X2 := by
  have hemp : maps.isEmpty = false := by
    cases maps with
    | nil => exact absurd rfl hne
    | cons hd tl => rfl
  refine ⟨?_, ?_, ?_, ?_⟩ <;>
    simp [minimizeCategoricalEffect, catTransform, minimizeCategoricalMemoryUsage,
      hemp, hok]

/-- C4 witness: the inplace=false effect at a concrete fitted map and
input frame: the caller's frame keeps the original label while the
returned frame holds the integer code. -/
theorem c4_witness :
    minimizeCategoricalEffect ⟨false, ⟨[]⟩, some [("col", [(PyVal.s "x", 0)])]⟩
        [("col", ⟨[PyVal.s "x"], [0]⟩)] =
      Except.ok ([("col", ⟨[PyVal.s "x"], [0]⟩)], [("col", ⟨[PyVal.i 0], [0]⟩)]) :=
  (c4_inplace_effect ⟨[]⟩ [("col", [(PyVal.s "x", 0)])]
    [("col", ⟨[PyVal.s "x"], [0]⟩)] [("col", ⟨[PyVal.i 0], [0]⟩)]
    (by simp) rfl).1

/-- C7: both transforms preserve the dataset's shape: the Category
Minimizer's transform keeps every column name, every column's code
sequence (hence row count and row order), and the column order; its
fit_transform always yields such a frame; the Numeric Minimizer rewrites
each column pointwise, keeping names, order and per-column row counts. -/
theorem c7_shape_preserved :
    (∀ (g : CategoryMemoryMinimizeFeatureGenerator) (X X2 : CatFrame),
      catTransform g X = Except.ok X2 →
      X2.map (fun p => (p.1, p.2.codes)) = X.map (fun p => (p.1, p.2.codes)) ∧
      X2.map (fun p => p.1) = X.map (fun p => p.1) ∧
      X2.map (fun p => p.2.codes.length) = X.map fun p => p.2.codes.length) ∧
    (∀ (g : CategoryMemoryMinimizeFeatureGenerator) (X : CatFrame),
      ∃ X2, (catFitTransform g X).2.1 = Except.ok X2 ∧
        X2.map (fun p => (p.1, p.2.codes)) = X.map fun p => (p.1, p.2.codes)) ∧
    (∀ (g : NumericMemoryMinimizeFeatureGenerator) (X : NumFrame),
      (numTransform g X).map (fun p => p.1) = X.map (fun p => p.1) ∧
      (numTransform g X).map (fun p => p.2.values.length) =
        X.map (fun p => p.2.values.length) ∧
      numTransform g X = X.map fun p =>
        (p.1, ⟨g.dtypeOut, p.2.values.map (clipVal g.clipMin g.clipMax)⟩)) := by
  have hproj : ∀ (X X2 : CatFrame),
      X2.map (fun p => (p.1, p.2.codes)) = X.map (fun p => (p.1, p.2.codes)) →
      X2.map (fun p => p.1) = X.map (fun p => p.1) ∧
      X2.map (fun p => p.2.codes.length) = X.map fun p => p.2.codes.length := by
    intro X X2 h
    constructor
    · have := congrArg (List.map fun q : String × List Nat => q.1) h
      simpa [List.map_map, Function.comp] using this
    · have := congrArg (List.map fun q : String × List Nat => q.2.length) h
      simpa [List.map_map, Function.comp] using this
  refine ⟨?_, ?_, ?_⟩
  · intro g X X2 h
    have hmain : X2.map (fun p => (p.1, p.2.codes)) = X.map fun p => (p.1, p.2.codes) := by
      cases hcm : g.categoryMaps with
      | none => simp [catTransform, minimizeCategoricalMemoryUsage, hcm] at h
      | some maps =>
        simp only [catTransform, minimizeCategoricalMemoryUsage, hcm] at h
        by_cases he : maps.isEmpty
        · rw [if_pos he] at h
          cases h
          rfl
        · rw [if_neg he] at h
          exact applyCategoryMaps_proj maps X X2 h
    exact ⟨hmain, (hproj X X2 hmain).1, (hproj X X2 hmain).2⟩
  · intro g X
    cases X with
    | nil => exact ⟨[], rfl, rfl⟩
    | cons hd tl =>
      have hall : ∀ p ∈ getCategoryMap (hd :: tl),
          ((hd :: tl).any fun nc => nc.1 == p.1) = true := by
        intro p hp
        rw [getCategoryMap, List.mem_map] at hp
        obtain ⟨nc, hnc, rfl⟩ := hp
        rw [List.any_eq_true]
        exact ⟨nc, hnc, by simp⟩
      obtain ⟨X2, h2⟩ := applyCategoryMaps_ok (getCategoryMap (hd :: tl)) (hd :: tl) hall
      refine ⟨X2, ?_, applyCategoryMaps_proj _ _ _ h2⟩
      simp only [catFitTransform, minimizeCategoricalMemoryUsage]
      rw [show getCategoryMap (hd :: tl) =
        (hd.1, getCategoryMapColumn hd.2) :: getCategoryMap tl from rfl]
      rw [show ((hd.1, getCategoryMapColumn hd.2) ::
        getCategoryMap tl).isEmpty = false from rfl]
      simpa using h2
  · intro g X
    refine ⟨?_, ?_, rfl⟩
    · simp [numTransform, minimizeNumericMemoryUsage, clip_and_astype, List.map_map,
        Function.comp]
    · simp [numTransform, minimizeNumericMemoryUsage, clip_and_astype, List.map_map,
        Function.comp]

/-- C7 witness: shape preservation of the category transform at a
concrete fitted instance and input. -/
theorem c7_witness :
    ([] : CatFrame).map (fun p => (p.1, p.2.codes)) =
      ([] : CatFrame).map fun p => (p.1, p.2.codes) :=
  (c7_shape_preserved.1 ⟨false, ⟨[]⟩, some []⟩ [] [] rfl).1

/-- C3: fitting a categorical column whose encoding enumerates its k
distinct values in first-seen order replaces the categories by the
integers 0..k-1 while keeping every row's code, the output codes are
exactly the set 0..k-1, each code is the first-seen position of the row's
original category, and on the column [red, blue, red, green] the fitted
map is red to 0, blue to 1, green to 2 and the transformed column is
[0, 1, 0, 2]. -/
theorem c3_fit_transform_first_seen_codes (vals : List PyVal) (b : Bool)
    (meta : FeatureMetadata) :
    ((catFitTransform (catInit b meta) [("col", categoricalFromValues vals)]).2.1 =
      Except.ok [("col",
        { categories :=
            (List.range (firstSeen vals).length).map fun (j : Nat) => PyVal.i (j : Int)
          codes := (categoricalFromValues vals).codes })]) ∧
    (categoricalFromValues vals).codes.toFinset = Finset.range (firstSeen vals).length ∧
    (firstSeen vals).Nodup ∧
    (∀ r v, vals.get? r = some v →
      (categoricalFromValues vals).codes.get? r =
        some (List.indexOf v (firstSeen vals)) ∧
      (firstSeen vals).get? (List.indexOf v (firstSeen vals)) = some v) ∧
    (catFitTransform (catInit false ⟨[]⟩)
        [("col", categoricalFromValues
          [PyVal.s "red", PyVal.s "blue", PyVal.s "red", PyVal.s "green"])]).1.categoryMaps =
      some [("col", [(PyVal.s "red", 0), (PyVal.s "blue", 1), (PyVal.s "green", 2)])] ∧
    (catFitTransform (catInit false ⟨[]⟩)
        [("col", categoricalFromValues
          [PyVal.s "red", PyVal.s "blue", PyVal.s "red", PyVal.s "green"])]).2.1 =
      Except.ok [("col", { categories := [PyVal.i 0, PyVal.i 1, PyVal.i 2]
                           codes := [0, 1, 0, 2] })] ∧
    (categoricalFromValues
        [PyVal.s "red", PyVal.s "blue", PyVal.s "red", PyVal.s "green"]).values =
      [some (PyVal.s "red"), some (PyVal.s "blue"), some (PyVal.s "red"),
        some (PyVal.s "green")] := by
  have hnd : (firstSeen vals).Nodup := firstSeen_nodup vals
  have hndc : (categoricalFromValues vals).categories.Nodup := hnd
  refine ⟨?_, ?_, hnd, ?_, rfl, rfl, rfl⟩
  · have key := renameCategories_getCategoryMapColumn (categoricalFromValues vals) hndc
    simp only [catFitTransform, catInit, minimizeCategoricalMemoryUsage, getCategoryMap,
      List.map_cons, List.map_nil, List.isEmpty_cons, applyCategoryMaps,
      renameColumnIn, List.any_cons, List.any_nil, beq_self_eq_true, Bool.true_or,
      if_true, if_pos, key]
    rfl
  · apply Finset.ext
    intro j
    simp only [List.mem_toFinset, Finset.mem_range, categoricalFromValues, List.mem_map]
    constructor
    · rintro ⟨v, hv, rfl⟩
      exact List.indexOf_lt_length.mpr (mem_firstSeen.mpr hv)
    · intro hj
      refine ⟨(firstSeen vals).get ⟨j, hj⟩, ?_, ?_⟩
      · exact mem_firstSeen.mp (List.get_mem _ j hj)
      · exact indexOf_get_of_nodup (firstSeen vals) hnd j hj
  · intro r v hrv
    constructor
    · have hrv2 : vals[r]? = some v := by
        rw [← List.get?_eq_getElem?]
        exact hrv
      show (vals.map fun w => List.indexOf w (firstSeen vals)).get? r =
        some (List.indexOf v (firstSeen vals))
      rw [List.get?_eq_getElem?, List.getElem?_map, hrv2]
      rfl
    · have hvmem : v ∈ firstSeen vals :=
        mem_firstSeen.mpr (List.mem_iff_get?.mpr ⟨r, hrv⟩)
      exact List.indexOf_get? hvmem

/-- C3 witness: the per-row code equality instantiated at the concrete
column [red, blue, red, green], row 3. -/
theorem c3_witness :
    (categoricalFromValues
        [PyVal.s "red", PyVal.s "blue", PyVal.s "red", PyVal.s "green"]).codes.get? 3 =
      some (List.indexOf (PyVal.s "green")
        (firstSeen [PyVal.s "red", PyVal.s "blue", PyVal.s "red", PyVal.s "green"])) :=
  ((c3_fit_transform_first_seen_codes
      [PyVal.s "red", PyVal.s "blue", PyVal.s "red", PyVal.s "green"] false
      ⟨[]⟩).2.2.2.1 3 (PyVal.s "green") rfl).1

end MemoryMinimize
